import Mathlib

/-!
Verification of the s3-wasi-http core: AWS SigV4 request signing
(`src/api/mod.rs`) and streaming XML response decoding
(`src/api/mod.rs`, `src/api/list_buckets.rs`, `src/api/list_objects_v2.rs`,
`src/api/get_object.rs`, `src/api/head_object.rs`).

Bytes are modelled as `Nat` values below 256, byte strings as `List Nat`.
Rust `String` values are modelled as Lean `String`; where the code compares
or sorts strings, Rust compares UTF-8 byte sequences, which for valid UTF-8
coincides with lexicographic comparison of code points, so the model
compares `Char` code points.
-/

namespace S3

/-- UTF-8 encoding of one code point (model of Rust `str` byte access). -/
def utf8Bytes (c : Nat) : List Nat :=
  if c < 0x80 then [c]
  else if c < 0x800 then [0xc0 + c / 64, 0x80 + c % 64]
  else if c < 0x10000 then [0xe0 + c / 4096, 0x80 + c / 64 % 64, 0x80 + c % 64]
  else [0xf0 + c / 262144, 0x80 + c / 4096 % 64, 0x80 + c / 64 % 64, 0x80 + c % 64]

/-- The UTF-8 bytes of a string, as Rust's `str::as_bytes`. -/
def strBytes (s : String) : List Nat :=
  s.data.flatMap (fun ch => utf8Bytes ch.toNat)

/-- Truncation to 32 bits. -/
def w32 (n : Nat) : Nat := n % 4294967296

/-- 32-bit right rotation (operand assumed below `2 ^ 32`). -/
def rotr (n x : Nat) : Nat := (x / 2 ^ n + x % 2 ^ n * 2 ^ (32 - n)) % 4294967296

/-- SHA-256 `Ch` function (bitwise complement done by xor with the 32-bit mask). -/
def shaCh (x y z : Nat) : Nat := (x &&& y) ^^^ ((x ^^^ 0xffffffff) &&& z)

/-- SHA-256 `Maj` function. -/
def shaMaj (x y z : Nat) : Nat := (x &&& y) ^^^ (x &&& z) ^^^ (y &&& z)

/-- SHA-256 big sigma 0. -/
def bsig0 (x : Nat) : Nat := rotr 2 x ^^^ rotr 13 x ^^^ rotr 22 x

/-- SHA-256 big sigma 1. -/
def bsig1 (x : Nat) : Nat := rotr 6 x ^^^ rotr 11 x ^^^ rotr 25 x

/-- SHA-256 small sigma 0. -/
def ssig0 (x : Nat) : Nat := rotr 7 x ^^^ rotr 18 x ^^^ x / 2 ^ 3

/-- SHA-256 small sigma 1. -/
def ssig1 (x : Nat) : Nat := rotr 17 x ^^^ rotr 19 x ^^^ x / 2 ^ 10

/-- The SHA-256 round constants (FIPS 180-4, written in decimal). -/
def shaK : List Nat :=
  [1116352408, 1899447441, 3049323471, 3921009573, 961987163,
   1508970993, 2453635748, 2870763221, 3624381080, 310598401,
   607225278, 1426881987, 1925078388, 2162078206, 2614888103,
   3248222580, 3835390401, 4022224774, 264347078, 604807628,
   770255983, 1249150122, 1555081692, 1996064986, 2554220882,
   2821834349, 2952996808, 3210313671, 3336571891, 3584528711,
   113926993, 338241895, 666307205, 773529912, 1294757372,
   1396182291, 1695183700, 1986661051, 2177026350, 2456956037,
   2730485921, 2820302411, 3259730800, 3345764771, 3516065817,
   3600352804, 4094571909, 275423344, 430227734, 506948616,
   659060556, 883997877, 958139571, 1322822218, 1537002063,
   1747873779, 1955562222, 2024104815, 2227730452, 2361852424,
   2428436474, 2756734187, 3204031479, 3329325298]

/-- The SHA-256 initial hash value (FIPS 180-4, written in decimal). -/
def shaH0 : List Nat :=
  [1779033703, 3144134277, 1013904242, 2773480762,
   1359893119, 2600822924, 528734635, 1541459225]

/-- `beBytes k n` is the `k`-byte big-endian encoding of `n`. -/
def beBytes : Nat → Nat → List Nat
  | 0, _ => []
  | k + 1, n => beBytes k (n / 256) ++ [n % 256]

/-- SHA-256 message padding: `0x80`, zeros, 64-bit big-endian bit length. -/
def shaPad (msg : List Nat) : List Nat :=
  msg ++ 0x80 :: List.replicate ((64 - (msg.length + 9) % 64) % 64) 0
      ++ beBytes 8 (8 * msg.length)

/-- Big-endian 32-bit words from a byte list (length a multiple of 4). -/
def beWords : List Nat → List Nat
  | a :: b :: c :: d :: rest => (((a * 256 + b) * 256 + c) * 256 + d) :: beWords rest
  | _ => []

/-- Split a byte list into 64-byte blocks. -/
def chunks64 (l : List Nat) : List (List Nat) :=
  if h : l = [] then [] else l.take 64 :: chunks64 (l.drop 64)
termination_by l.length
decreasing_by
  have hl : 0 < l.length := List.length_pos.mpr h
  simp only [List.length_drop]
  omega

/-- Extend the 16 schedule words by `n` further words. -/
def extendSched : Nat → List Nat → List Nat
  | 0, w => w
  | n + 1, w =>
      let len := w.length
      let nw := w32 (ssig1 (w.getD (len - 2) 0) + w.getD (len - 7) 0
         + ssig0 (w.getD (len - 15) 0) + w.getD (len - 16) 0)
      extendSched n (w ++ [nw])

/-- The eight SHA-256 working variables. -/
structure Hash8 where
  a : Nat
  b : Nat
  c : Nat
  d : Nat
  e : Nat
  f : Nat
  g : Nat
  h : Nat
deriving DecidableEq, Repr

/-- One SHA-256 compression round. -/
def shaRound (st : Hash8) (k w : Nat) : Hash8 :=
  let t1 := w32 (st.h + bsig1 st.e + shaCh st.e st.f st.g + k + w)
  let t2 := w32 (bsig0 st.a + shaMaj st.a st.b st.c)
  ⟨w32 (t1 + t2), st.a, st.b, st.c, w32 (st.d + t1), st.e, st.f, st.g⟩

/-- Process one 64-byte block, updating the eight-word hash state. -/
def processBlock (hs : List Nat) (block : List Nat) : List Nat :=
  let ws := extendSched 48 (beWords block)
  let i : Hash8 := ⟨hs.getD 0 0, hs.getD 1 0, hs.getD 2 0, hs.getD 3 0,
     hs.getD 4 0, hs.getD 5 0, hs.getD 6 0, hs.getD 7 0⟩
  let fin := (shaK.zip ws).foldl (fun st kw => shaRound st kw.1 kw.2) i
  [w32 (hs.getD 0 0 + fin.a), w32 (hs.getD 1 0 + fin.b), w32 (hs.getD 2 0 + fin.c),
   w32 (hs.getD 3 0 + fin.d), w32 (hs.getD 4 0 + fin.e), w32 (hs.getD 5 0 + fin.f),
   w32 (hs.getD 6 0 + fin.g), w32 (hs.getD 7 0 + fin.h)]

/-- SHA-256 of a byte list (model of the `sha2` crate's `Sha256::digest`). -/
def sha256 (msg : List Nat) : List Nat :=
  ((chunks64 (shaPad msg)).foldl processBlock shaH0).flatMap (beBytes 4)

/-- HMAC-SHA256 (model of the `hmac` crate; any key length is accepted,
so the code's `hmac_sha256` never returns the error case). -/
def hmacSha256 (key data : List Nat) : List Nat :=
  let k0 := if 64 < key.length then sha256 key else key
  let kb := k0 ++ List.replicate (64 - k0.length) 0
  sha256 (kb.map (fun b => b ^^^ 0x5c) ++ sha256 (kb.map (fun b => b ^^^ 0x36) ++ data))

/-- One lowercase hex digit. -/
def hexDigit (n : Nat) : Char := Char.ofNat (if n < 10 then 48 + n else 87 + n)

/-- Lowercase hex encoding of a byte list (model of `hex::encode`). -/
def hexEncode (bs : List Nat) : String :=
  ⟨bs.flatMap (fun b => [hexDigit (b / 16), hexDigit (b % 16)])⟩

/-! ### Percent encoding (`QUERY_SET`, `PATH_SET`, the `percent-encoding` crate) -/

/-- The explicitly listed members of `QUERY_SET` in `src/api/mod.rs` (byte values:
space / : , ? # [ ] brace brace pipe @ ! dollar ampersand quote parens * + ; = %
angle brackets double-quote caret backquote backslash). -/
def querySetBytes : List Nat :=
  [0x20, 0x2f, 0x3a, 0x2c, 0x3f, 0x23, 0x5b, 0x5d, 0x7b, 0x7d, 0x7c, 0x40,
   0x21, 0x24, 0x26, 0x27, 0x28, 0x29, 0x2a, 0x2b, 0x3b, 0x3d, 0x25, 0x3c,
   0x3e, 0x22, 0x5e, 0x60, 0x5c]

/-- Whether a byte is percent-encoded under `QUERY_SET`: the crate encodes
C0 controls and DEL (the `CONTROLS` base set), every non-ASCII byte, and the
bytes added to the set. -/
def queryByteEncoded (b : Nat) : Bool :=
  decide (b < 0x20) || decide (b = 0x7f) || decide (0x80 ≤ b) || querySetBytes.contains b

/-- Whether a byte is percent-encoded under `PATH_SET = QUERY_SET.remove(b'/')`. -/
def pathByteEncoded (b : Nat) : Bool :=
  queryByteEncoded b && !(decide (b = 0x2f))

/-- One uppercase hex digit (the crate emits `%XX` in uppercase). -/
def hexUpper (n : Nat) : Char := Char.ofNat (if n < 10 then 48 + n else 55 + n)

/-- Percent-encode a string, escaping the bytes selected by `f`. -/
def percentEncodeWith (f : Nat → Bool) (s : String) : String :=
  ⟨(strBytes s).flatMap
    (fun b => if f b then ['%', hexUpper (b / 16), hexUpper (b % 16)] else [Char.ofNat b])⟩

/-- `percent_encode_query` from `src/api/mod.rs`. -/
def percent_encode_query (s : String) : String := percentEncodeWith queryByteEncoded s

/-- `percent_encode_path` from `src/api/mod.rs`. -/
def percent_encode_path (s : String) : String := percentEncodeWith pathByteEncoded s

/-! ### The string / pair order used by `Vec::sort`

Rust sorts `Vec<(String, String)>` by the derived `Ord`: lexicographic on the
pair, each `String` compared as its UTF-8 byte sequence.  For valid UTF-8,
byte-sequence order coincides with code-point order, modelled here on
`List Char`. -/

/-- Strict lexicographic order on char lists (Rust `String` `Ord`). -/
def strLtb : List Char → List Char → Bool
  | [], [] => false
  | [], _ :: _ => true
  | _ :: _, [] => false
  | a :: as, b :: bs =>
    if a.toNat < b.toNat then true
    else if b.toNat < a.toNat then false
    else strLtb as bs

/-- Strict lexicographic order on `(String, String)` pairs: the derived Rust
`Ord` used by `self.query.sort()` and `canonical_headers_vec.sort()`. -/
def pairLtb (x y : String × String) : Bool :=
  if strLtb x.1.data y.1.data then true
  else if strLtb y.1.data x.1.data then false
  else strLtb x.2.data y.2.data

/-- Non-strict pair order: `x ≤ y` iff `¬ (y < x)` (how a total `Ord` sorts). -/
def pairLe (x y : String × String) : Prop := pairLtb y x = false

instance : DecidableRel pairLe := fun x y => by
  unfold pairLe
  infer_instance

/-- `Vec::sort` on percent-encoded pairs: the unique `pairLe`-sorted
permutation (stability is irrelevant because the order is antisymmetric). -/
def sortPairs (l : List (String × String)) : List (String × String) :=
  List.insertionSort pairLe l

/-! ### The request builder (`S3RequestBuilder` in `src/api/mod.rs`)

The builder state carries the fields `build` reads.  The current time and the
endpoint resolution are inputs here: `build` formats `Utc::now()` into
`date_stamp`/`amz_date`, and resolves `(scheme, host)` from the endpoint via
`http::Uri` (an external crate), so the model receives those four strings. -/

/-- `AWS_SERVICE` from `src/lib.rs`. -/
def AWS_SERVICE : String := "s3"

/-- `AWS_SIGN_ALGORITHM` from `src/api/mod.rs`. -/
def AWS_SIGN_ALGORITHM : String := "AWS4-HMAC-SHA256"

/-- Builder state (the fields of `S3RequestBuilder`).  `scheme` holds the
configured default scheme (`Scheme::HTTPS`, rendered as a string); `endpoint`
is the raw endpoint string, resolved to `(scheme, host)` at build time by the
external `http::Uri` crate, so `buildRequest` below takes the resolution
result as input. -/
structure BuilderSt where
  method : String
  action : String
  query : List (String × String)
  headers : List (String × String)
  xAmzHeaders : List (String × String)
  accessKey : String
  secretKey : String
  region : String
  endpoint : String
  scheme : String
  body : Option (List Nat)
deriving DecidableEq, Repr

/-- `S3RequestBuilder::new`: empty query/header lists, HTTPS scheme, no body. -/
def BuilderSt.new (method action accessKey secretKey region endpoint : String) : BuilderSt :=
  ⟨method, action, [], [], [], accessKey, secretKey, region, endpoint, "https", none⟩

/-- `S3RequestBuilder::query`: percent-encode key and value (an absent value
encodes as the empty string) and append the pair. -/
def BuilderSt.queryPush (st : BuilderSt) (key : String) (value : Option String) : BuilderSt :=
  { st with query :=
      st.query ++ [(percent_encode_query key, percent_encode_query (value.getD ""))] }

/-- `S3RequestBuilder::header`: keys starting with `"x-amz"` go to the signed
x-amz list, all others to the general header list (`str::starts_with` is a
byte-prefix test, modelled on the char list). -/
def BuilderSt.headerPush (st : BuilderSt) (key value : String) : BuilderSt :=
  if "x-amz".data.isPrefixOf key.data then
    { st with xAmzHeaders := st.xAmzHeaders ++ [(key, value)] }
  else
    { st with headers := st.headers ++ [(key, value)] }

/-- The canonical query string in `build`: empty input gives the empty string,
otherwise sort the (already percent-encoded) pairs and join `k=v` with `&`. -/
def canonicalQueryString (q : List (String × String)) : String :=
  match q with
  | [] => ""
  | _ => String.intercalate "&" ((sortPairs q).map (fun p => p.1 ++ "=" ++ p.2))

/-- The payload hash in `build`: hex SHA-256 of the body bytes, or of the
bytes of the `AWS_SERVICE_EMPTY_PAYLOAD` constant `"UNSIGNED-PAYLOAD"`. -/
def payloadHashOf (body : Option (List Nat)) : String :=
  match body with
  | some b => hexEncode (sha256 b)
  | none => hexEncode (sha256 (strBytes "UNSIGNED-PAYLOAD"))

/-- The sorted canonical header vector in `build`: the caller's x-amz headers
(as supplied, with no case normalisation) plus `host`, `x-amz-content-sha256`
and `x-amz-date`, sorted by the derived pair order. -/
def canonicalHeadersVec (xamz : List (String × String))
    (host payloadHash amzDate : String) : List (String × String) :=
  sortPairs (xamz ++
    [("host", host), ("x-amz-content-sha256", payloadHash), ("x-amz-date", amzDate)])

/-- The canonical header block: `name:value` lines joined with newlines, then
one trailing `push_str("\n")`. -/
def canonicalHeaderBlock (v : List (String × String)) : String :=
  String.intercalate "\n" (v.map (fun p => p.1 ++ ":" ++ p.2)) ++ "\n"

/-- The signed-header list: the sorted names joined with `;`. -/
def signedHeadersOf (v : List (String × String)) : String :=
  String.intercalate ";" (v.map Prod.fst)

/-- `get_signature_key` from `src/api/mod.rs`: the four-stage HMAC chain. -/
def get_signature_key (secretKey date region service : String) : List Nat :=
  hmacSha256
    (hmacSha256
      (hmacSha256
        (hmacSha256 (strBytes ("AWS4" ++ secretKey)) (strBytes date))
        (strBytes region))
      (strBytes service))
    (strBytes "aws4_request")

/-- ASCII lowercasing of one char, as `http::HeaderName` parsing applies. -/
def lowerChar (c : Char) : Char :=
  if 65 ≤ c.toNat ∧ c.toNat ≤ 90 then Char.ofNat (c.toNat + 32) else c

/-- ASCII lowercasing of a string. -/
def lowerStr (s : String) : String := ⟨s.data.map lowerChar⟩

/-- `HeaderMap::insert` keyed on the (lower-cased) header name: replaces the
value of an existing entry, otherwise appends a new entry. -/
def insertHeader (hs : List (String × String)) (k v : String) : List (String × String) :=
  if hs.any (fun p => decide (p.1 = k)) then
    hs.map (fun p => if p.1 = k then (k, v) else p)
  else hs ++ [(k, v)]

/-- The output of `build`, by component. -/
structure BuiltRequest where
  canonicalQuery : String
  payloadHash : String
  canonicalHeaders : String
  signedHeaders : String
  canonicalRequest : String
  signature : String
  authorization : String
  uri : String
  headers : List (String × String)
  bodyBytes : List Nat
deriving Repr

/-- `S3RequestBuilder::build` (`src/api/mod.rs` lines 569-683), after the
current time has been formatted to `dateStamp`/`amzDate` and the endpoint
resolved to `(scheme, host)`.  Follows the source step by step. -/
def buildRequest (st : BuilderSt) (dateStamp amzDate scheme host : String) : BuiltRequest :=
  let query := canonicalQueryString st.query
  let payloadHash := payloadHashOf st.body
  let chv := canonicalHeadersVec st.xAmzHeaders host payloadHash amzDate
  let canonicalHeaders := canonicalHeaderBlock chv
  let signedHeaders := signedHeadersOf chv
  let canonicalRequest := st.method ++ "\n" ++ "/" ++ st.action ++ "\n" ++ query
    ++ "\n" ++ canonicalHeaders ++ "\n" ++ signedHeaders ++ "\n" ++ payloadHash
  let canonicalRequestHash := hexEncode (sha256 (strBytes canonicalRequest))
  let credentialScope := dateStamp ++ "/" ++ st.region ++ "/" ++ AWS_SERVICE ++ "/aws4_request"
  let stringToSign := AWS_SIGN_ALGORITHM ++ "\n" ++ amzDate ++ "\n" ++ credentialScope
    ++ "\n" ++ canonicalRequestHash
  let signingKey := get_signature_key st.secretKey dateStamp st.region AWS_SERVICE
  let signature := hexEncode (hmacSha256 signingKey (strBytes stringToSign))
  let authorization := AWS_SIGN_ALGORITHM ++ " Credential=" ++ st.accessKey ++ "/"
    ++ credentialScope ++ ", SignedHeaders=" ++ signedHeaders ++ ", Signature=" ++ signature
  let bodyBytes := st.body.getD []
  let uri := match st.query with
    | [] => scheme ++ "://" ++ host ++ "/" ++ st.action
    | _ => scheme ++ "://" ++ host ++ "/" ++ st.action ++ "?" ++ query
  let headers := st.headers.foldl (fun acc kv => insertHeader acc (lowerStr kv.1) kv.2)
    [("x-amz-content-sha256", payloadHash), ("x-amz-date", amzDate),
     ("authorization", authorization), ("content-length", toString bodyBytes.length)]
  ⟨query, payloadHash, canonicalHeaders, signedHeaders, canonicalRequest,
   signature, authorization, uri, headers, bodyBytes⟩

/-- The signature computation of `build` as a standalone function of the
secret key, date stamp, region, amz-date and canonical request string. -/
def buildSignature (secretKey dateStamp region amzDate canonicalRequest : String) : String :=
  hexEncode (hmacSha256
    (get_signature_key secretKey dateStamp region AWS_SERVICE)
    (strBytes (AWS_SIGN_ALGORITHM ++ "\n" ++ amzDate ++ "\n"
      ++ (dateStamp ++ "/" ++ region ++ "/" ++ AWS_SERVICE ++ "/aws4_request")
      ++ "\n" ++ hexEncode (sha256 (strBytes canonicalRequest)))))

/-! ### Specification-side definitions (claim C1)

These two definitions follow the words of the specification (section 4.3),
to be compared with the source-derived `get_signature_key`/`buildSignature`. -/

/-- Spec formula: `HMAC(HMAC(HMAC(HMAC("AWS4"+secret, dateStamp), region),
"s3"), "aws4_request")`. -/
def spec_signing_key (secret dateStamp region : String) : List Nat :=
  hmacSha256
    (hmacSha256
      (hmacSha256
        (hmacSha256 (strBytes ("AWS4" ++ secret)) (strBytes dateStamp))
        (strBytes region))
      (strBytes "s3"))
    (strBytes "aws4_request")

/-- Spec formula: `"AWS4-HMAC-SHA256" + "\n" + amzDate + "\n" +
credentialScope + "\n" + hex(SHA256(canonicalRequest))`, with
`credentialScope = dateStamp + "/" + region + "/s3/aws4_request"`. -/
def spec_string_to_sign (amzDate dateStamp region canonicalRequest : String) : String :=
  "AWS4-HMAC-SHA256" ++ "\n" ++ amzDate ++ "\n"
    ++ (dateStamp ++ "/" ++ region ++ "/s3/aws4_request")
    ++ "\n" ++ hexEncode (sha256 (strBytes canonicalRequest))

/-! ### Operation request types (`get_object.rs`, `head_object.rs`) -/

/-- `GetObjectRequest` (part number is an `i32`). -/
structure GetObjectRequest where
  key : String
  part_number : Option Int
  version_id : Option String
deriving DecidableEq, Repr

/-- `GetObjectRequest::into_builder`: GET on the key; a part number outside
1..=10000 is rejected before any query parameter is added. -/
def GetObjectRequest.into_builder (r : GetObjectRequest)
    (accessKey secretKey region endpoint : String) : Except String BuilderSt := do
  let b0 := BuilderSt.new "GET" r.key accessKey secretKey region endpoint
  let b1 ← match r.part_number with
    | some n =>
      if 1 ≤ n ∧ n ≤ 10000 then
        Except.ok (b0.queryPush "partNumber" (some (toString n)))
      else
        Except.error ("part_number has to be constrained to part_number >= 1 and part_number <= 10000, part_number is " ++ toString n)
    | none => Except.ok b0
  match r.version_id with
  | some v => Except.ok (b1.queryPush "versionId" (some v))
  | none => Except.ok b1

/-- `HeadObjectRequest` (part number is a `u32`). -/
structure HeadObjectRequest where
  key : String
  part_number : Option Nat
  version_id : Option String
deriving DecidableEq, Repr

/-- `HeadObjectRequest::into_builder`: same bound check, `VersionId` key. -/
def HeadObjectRequest.into_builder (r : HeadObjectRequest)
    (accessKey secretKey region endpoint : String) : Except String BuilderSt := do
  let b0 := BuilderSt.new "GET" r.key accessKey secretKey region endpoint
  let b1 ← match r.part_number with
    | some n =>
      if 1 ≤ n ∧ n ≤ 10000 then
        Except.ok (b0.queryPush "partNumber" (some (toString n)))
      else
        Except.error ("part_number has to be constrained to 1 <= part_number <= 10000, part_number is " ++ toString n)
    | none => Except.ok b0
  match r.version_id with
  | some v => Except.ok (b1.queryPush "VersionId" (some v))
  | none => Except.ok b1

/-- Whether a builder production succeeded with the pair `(k, v)` among its
query parameters. -/
def builderQueryHas (e : Except String BuilderSt) (k v : String) : Bool :=
  match e with
  | .ok b => b.query.contains (k, v)
  | .error _ => false

/-! ### XML events and RFC 3339 timestamps

The decoders consume `xml-rs` pull events; only the local element name and
character data are inspected by the code, so events carry just those.
Timestamps go through chrono's `DateTime::parse_from_rfc3339(..).to_utc()`
(an external crate), modelled as seconds since the Unix epoch plus
nanoseconds, the offset subtracted out. -/

/-- One pull-parser event. -/
inductive XmlEvt where
  | startDocument
  | endDocument
  | startElement (name : String)
  | endElement (name : String)
  | characters (s : String)
deriving DecidableEq, Repr

/-- A UTC instant: seconds since the Unix epoch, plus nanoseconds. -/
structure DateTimeUtc where
  sec : Int
  nano : Nat
deriving DecidableEq, Repr

/-- The value of a decimal digit, if the char is one. -/
def digitVal (c : Char) : Option Nat :=
  if 48 ≤ c.toNat ∧ c.toNat ≤ 57 then some (c.toNat - 48) else none

/-- Read exactly `n` decimal digits into an accumulator. -/
def readDigits : Nat → Nat → List Char → Option (Nat × List Char)
  | 0, acc, cs => some (acc, cs)
  | n + 1, acc, c :: cs =>
    match digitVal c with
    | some d => readDigits n (acc * 10 + d) cs
    | none => none
  | _ + 1, _, [] => none

/-- Consume one expected char. -/
def expectChar (ch : Char) : List Char → Option (List Char)
  | c :: cs => if c = ch then some cs else none
  | [] => none

/-- Take a maximal run of decimal digits. -/
def takeDigits : List Char → (List Nat × List Char)
  | c :: cs =>
    match digitVal c with
    | some d =>
      let (ds, rest) := takeDigits cs
      (d :: ds, rest)
    | none => ([], c :: cs)
  | [] => ([], [])

/-- Nanoseconds from a fraction digit list (first nine digits, zero-padded). -/
def nanosOf (ds : List Nat) : Nat :=
  (ds.take 9 ++ List.replicate (9 - ds.length) 0).foldl (fun a d => a * 10 + d) 0

/-- Parse an optional fractional-seconds part (a dot demands digits). -/
def readFrac : List Char → Option (Nat × List Char)
  | '.' :: rest =>
    match takeDigits rest with
    | ([], _) => none
    | (ds, rest2) => some (nanosOf ds, rest2)
  | cs => some (0, cs)

/-- Parse the offset: `Z`/`z`, or a signed `hh:mm`, in seconds. -/
def readOffset : List Char → Option (Int × List Char)
  | c :: cs =>
    if c = 'Z' ∨ c = 'z' then some (0, cs)
    else if c = '+' ∨ c = '-' then do
      let (hh, cs1) ← readDigits 2 0 cs
      let cs2 ← expectChar ':' cs1
      let (mm, cs3) ← readDigits 2 0 cs2
      if hh ≤ 23 ∧ mm ≤ 59 then
        some (if c = '+' then ((hh * 3600 + mm * 60 : Nat) : Int)
              else -((hh * 3600 + mm * 60 : Nat) : Int), cs3)
      else none
    else none
  | [] => none

/-- Gregorian leap year. -/
def isLeapYear (y : Int) : Bool :=
  (decide (y % 4 = 0) && !(decide (y % 100 = 0))) || decide (y % 400 = 0)

/-- Days in a month. -/
def daysInMonth (y : Int) (m : Nat) : Nat :=
  if m = 2 then (if isLeapYear y then 29 else 28)
  else if m = 4 ∨ m = 6 ∨ m = 9 ∨ m = 11 then 30
  else 31

/-- Days since 1970-01-01 of a civil date (Lean's `Int` division is floor
division, so the era computation needs no sign adjustment). -/
def daysFromCivil (y : Int) (m d : Nat) : Int :=
  let y2 : Int := if m ≤ 2 then y - 1 else y
  let era : Int := y2 / 400
  let yoe : Int := y2 - era * 400
  let mp : Nat := (m + 9) % 12
  let doy : Nat := (153 * mp + 2) / 5 + (d - 1)
  let doe : Int := yoe * 365 + yoe / 4 - yoe / 100 + (doy : Int)
  era * 146097 + doe - 719468

/-- Model of chrono's strict RFC 3339 parse normalised to UTC:
`YYYY-MM-DDThh:mm:ss[.frac](Z|+hh:mm|-hh:mm)`, whole input consumed, fields
range-checked (leap-second `60` is not modelled). -/
def parse_from_rfc3339 (s : String) : Option DateTimeUtc := do
  let (y, cs) ← readDigits 4 0 s.data
  let cs ← expectChar '-' cs
  let (mo, cs) ← readDigits 2 0 cs
  let cs ← expectChar '-' cs
  let (dy, cs) ← readDigits 2 0 cs
  let cs ← match cs with
    | c :: rest => if c = 'T' ∨ c = 't' then some rest else none
    | [] => none
  let (hh, cs) ← readDigits 2 0 cs
  let cs ← expectChar ':' cs
  let (mi, cs) ← readDigits 2 0 cs
  let cs ← expectChar ':' cs
  let (ss, cs) ← readDigits 2 0 cs
  let (nano, cs) ← readFrac cs
  let (off, cs) ← readOffset cs
  if 1 ≤ mo ∧ mo ≤ 12 ∧ 1 ≤ dy ∧ dy ≤ daysInMonth (y : Int) mo
      ∧ hh ≤ 23 ∧ mi ≤ 59 ∧ ss ≤ 59 ∧ cs = [] then
    some ⟨daysFromCivil (y : Int) mo dy * 86400
      + ((hh * 3600 + mi * 60 + ss : Nat) : Int) - off, nano⟩
  else none

/-! ### XML response records and decode routines

Every decode loop is a function from the remaining event list to the decoded
value plus the remaining events.  Loops take a fuel argument (any fuel larger
than the event-list length is enough, since each iteration consumes at least
one event); the Rust loops run until their break condition or a parser error.
Pulling on an exhausted stream is modelled as the error
`"unexpected end of stream"` (xml-rs yields an error there), and a failed
chrono timestamp parse as `"invalid rfc3339 timestamp"`. -/

/-- `parse_xml_string` from `src/api/mod.rs`: the very next event must be
character data. -/
def parse_xml_string (evts : List XmlEvt) (field : String) :
    Except String (String × List XmlEvt) :=
  match evts with
  | XmlEvt.characters v :: rest => .ok (v, rest)
  | _ => .error ("Invalid response object, " ++ field ++ " has no value")

/-- `parse_xml_bool` from `src/api/mod.rs`: case-insensitive true/false. -/
def parse_xml_bool (evts : List XmlEvt) (field : String) :
    Except String (Bool × List XmlEvt) :=
  match evts with
  | XmlEvt.characters v :: rest =>
    if lowerStr v = "true" then .ok (true, rest)
    else if lowerStr v = "false" then .ok (false, rest)
    else .error ("Invalid response object, " ++ field ++ " is not a boolean, value: " ++ v)
  | _ => .error ("Invalid response object, " ++ field ++ " element has no value")

/-- `ApiRestoreStatus` record. -/
structure ApiRestoreStatus where
  is_restore_in_progress : Bool
  restore_expiry_date : DateTimeUtc
deriving DecidableEq, Repr

/-- `ApiOwner` record. -/
structure ApiOwner where
  display_name : Option String
  id : String
deriving DecidableEq, Repr

/-- `ApiBucket` record. -/
structure ApiBucket where
  name : String
  creation_date : Option DateTimeUtc
  region : String
deriving DecidableEq, Repr

/-- `ListBucketsResponse` record (`prefix_opt` models the `prefix` field). -/
structure ListBucketsResponse where
  continuation_token : Option String
  buckets : List ApiBucket
  owner : ApiOwner
  prefix_opt : Option String
deriving DecidableEq, Repr

/-- The `RestoreStatus` inner loop of `ApiObject::parse`
(`src/api/mod.rs` lines 217-234), verbatim: note that its `EndElement`
arm breaks on the name `"Owner"`. -/
def restoreStatusLoop : Nat → ApiRestoreStatus → List XmlEvt →
    Except String (ApiRestoreStatus × List XmlEvt)
  | 0, _, _ => .error "fuel exhausted"
  | _ + 1, _, [] => .error "unexpected end of stream"
  | fuel + 1, rs, e :: rest =>
    match e with
    | .startElement n =>
      if n = "IsRestoreInProgress" then
        match parse_xml_bool rest "IsRestoreInProgress" with
        | .ok (b, rest2) => restoreStatusLoop fuel { rs with is_restore_in_progress := b } rest2
        | .error msg => .error msg
      else if n = "RestoreExpiryDate" then
        match parse_xml_string rest "RestoreExpiryDate" with
        | .ok (v, rest2) =>
          match parse_from_rfc3339 v with
          | some dt => restoreStatusLoop fuel { rs with restore_expiry_date := dt } rest2
          | none => .error "invalid rfc3339 timestamp"
        | .error msg => .error msg
      else restoreStatusLoop fuel rs rest
    | .endElement n => if n = "Owner" then .ok (rs, rest) else restoreStatusLoop fuel rs rest
    | _ => restoreStatusLoop fuel rs rest

/-- The `RestoreStatus` inner loop of `ListObjectsV2Response::parse_body`
(`src/api/list_objects_v2.rs` lines 365-399), verbatim: every start tag
demands a character event, and the `EndElement` arm again breaks on
`"Owner"`. -/
def lov2RestoreStatusLoop : Nat → ApiRestoreStatus → List XmlEvt →
    Except String (ApiRestoreStatus × List XmlEvt)
  | 0, _, _ => .error "fuel exhausted"
  | _ + 1, _, [] => .error "unexpected end of stream"
  | fuel + 1, rs, e :: rest =>
    match e with
    | .startElement n =>
      match rest with
      | .characters v :: rest2 =>
        if n = "IsRestoreInProgress" then
          if lowerStr v = "true" then
            lov2RestoreStatusLoop fuel { rs with is_restore_in_progress := true } rest2
          else if lowerStr v = "false" then
            lov2RestoreStatusLoop fuel { rs with is_restore_in_progress := false } rest2
          else
            .error ("Invalid response object, RestoreStatus.IsRestoreInProgress is not a boolean, value: " ++ v)
        else if n = "RestoreExpiryDate" then
          match parse_from_rfc3339 v with
          | some dt => lov2RestoreStatusLoop fuel { rs with restore_expiry_date := dt } rest2
          | none => .error "invalid rfc3339 timestamp"
        else lov2RestoreStatusLoop fuel rs rest2
      | _ => .error ("Invalid response object, " ++ n ++ " element has no value")
    | .endElement n => if n = "Owner" then .ok (rs, rest) else lov2RestoreStatusLoop fuel rs rest
    | _ => lov2RestoreStatusLoop fuel rs rest

/-- The loop of `ApiOwner::parse` (`src/api/mod.rs` lines 293-311): every
start tag demands a character event (the value is kept only for
`DisplayName`/`ID`); breaks on `</Owner>`. -/
def apiOwnerLoop : Nat → ApiOwner → List XmlEvt → Except String (ApiOwner × List XmlEvt)
  | 0, _, _ => .error "fuel exhausted"
  | _ + 1, _, [] => .error "unexpected end of stream"
  | fuel + 1, ow, e :: rest =>
    match e with
    | .startElement n =>
      match rest with
      | .characters v :: rest2 =>
        apiOwnerLoop fuel
          (if n = "DisplayName" then { ow with display_name := some v }
           else if n = "ID" then { ow with id := v } else ow) rest2
      | _ => .error ("Invalid response object, " ++ n ++ " element has no value")
    | .endElement n => if n = "Owner" then .ok (ow, rest) else apiOwnerLoop fuel ow rest
    | _ => apiOwnerLoop fuel ow rest

/-- `ApiOwner::parse`: starts from an unset owner record. -/
def ApiOwner.parse (fuel : Nat) (evts : List XmlEvt) :
    Except String (ApiOwner × List XmlEvt) :=
  apiOwnerLoop fuel ⟨none, ""⟩ evts

/-- The loop of `ApiBucket::parse` (`src/api/mod.rs` lines 260-277); note the
source passes the empty string as the field name when decoding `Name`. -/
def apiBucketLoop : Nat → ApiBucket → List XmlEvt → Except String (ApiBucket × List XmlEvt)
  | 0, _, _ => .error "fuel exhausted"
  | _ + 1, _, [] => .error "unexpected end of stream"
  | fuel + 1, b, e :: rest =>
    match e with
    | .startElement n =>
      if n = "BucketRegion" then
        match parse_xml_string rest "BucketRegion" with
        | .ok (v, rest2) => apiBucketLoop fuel { b with region := v } rest2
        | .error msg => .error msg
      else if n = "CreationDate" then
        match parse_xml_string rest "CreationDate" with
        | .ok (v, rest2) =>
          match parse_from_rfc3339 v with
          | some dt => apiBucketLoop fuel { b with creation_date := some dt } rest2
          | none => .error "invalid rfc3339 timestamp"
        | .error msg => .error msg
      else if n = "Name" then
        match parse_xml_string rest "" with
        | .ok (v, rest2) => apiBucketLoop fuel { b with name := v } rest2
        | .error msg => .error msg
      else apiBucketLoop fuel b rest
    | .endElement n => if n = "Bucket" then .ok (b, rest) else apiBucketLoop fuel b rest
    | _ => apiBucketLoop fuel b rest

/-- `ApiBucket::parse`: starts from empty name/region, no creation date. -/
def ApiBucket.parse (fuel : Nat) (evts : List XmlEvt) :
    Except String (ApiBucket × List XmlEvt) :=
  apiBucketLoop fuel ⟨"", none, ""⟩ evts

/-- The inline `Owner` loop of `ListBucketsResponse::parse_body`
(`src/api/list_buckets.rs` lines 128-144). -/
def lbOwnerLoop : Nat → ApiOwner → List XmlEvt → Except String (ApiOwner × List XmlEvt)
  | 0, _, _ => .error "fuel exhausted"
  | _ + 1, _, [] => .error "unexpected end of stream"
  | fuel + 1, ow, e :: rest =>
    match e with
    | .startElement n =>
      match rest with
      | .characters v :: rest2 =>
        lbOwnerLoop fuel
          (if n = "DisplayName" then { ow with display_name := some v }
           else if n = "ID" then { ow with id := v } else ow) rest2
      | _ => .error ("Invalid response object, " ++ n ++ " element has no value")
    | .endElement n => if n = "Owner" then .ok (ow, rest) else lbOwnerLoop fuel ow rest
    | _ => lbOwnerLoop fuel ow rest

/-- The inline single-`Bucket` loop of `ListBucketsResponse::parse_body`
(`src/api/list_buckets.rs` lines 157-187). -/
def lbBucketLoop : Nat → ApiBucket → List XmlEvt → Except String (ApiBucket × List XmlEvt)
  | 0, _, _ => .error "fuel exhausted"
  | _ + 1, _, [] => .error "unexpected end of stream"
  | fuel + 1, b, e :: rest =>
    match e with
    | .startElement n =>
      if n = "BucketRegion" then
        match rest with
        | .characters v :: rest2 => lbBucketLoop fuel { b with region := v } rest2
        | _ => .error "Invalid response object, BucketRegion has no value"
      else if n = "CreationDate" then
        match rest with
        | .characters v :: rest2 =>
          match parse_from_rfc3339 v with
          | some dt => lbBucketLoop fuel { b with creation_date := some dt } rest2
          | none => .error "invalid rfc3339 timestamp"
        | _ => .error "Invalid response object, CreationDate has no value"
      else if n = "Name" then
        match rest with
        | .characters v :: rest2 => lbBucketLoop fuel { b with name := v } rest2
        | _ => .error "Invalid response object, Name has no value"
      else lbBucketLoop fuel b rest
    | .endElement n => if n = "Bucket" then .ok (b, rest) else lbBucketLoop fuel b rest
    | _ => lbBucketLoop fuel b rest

/-- The `Buckets` section loop of `ListBucketsResponse::parse_body`
(`src/api/list_buckets.rs` lines 147-192): any start tag opens one bucket
entry; breaks on `</Buckets>`. -/
def lbBucketsLoop : Nat → List ApiBucket → List XmlEvt →
    Except String (List ApiBucket × List XmlEvt)
  | 0, _, _ => .error "fuel exhausted"
  | _ + 1, _, [] => .error "unexpected end of stream"
  | fuel + 1, acc, e :: rest =>
    match e with
    | .endElement n =>
      if n = "Buckets" then .ok (acc, rest) else lbBucketsLoop fuel acc rest
    | .startElement _ =>
      match lbBucketLoop fuel ⟨"", none, ""⟩ rest with
      | .ok (b, rest2) => lbBucketsLoop fuel (acc ++ [b]) rest2
      | .error msg => .error msg
    | _ => lbBucketsLoop fuel acc rest

/-- The top-level loop of `ListBucketsResponse::parse_body`
(`src/api/list_buckets.rs` lines 109-197): dispatches on `Prefix`,
`ContinuationToken`, `Owner` and `Buckets`, skips anything else, and stops at
the end-document event. -/
def lbTopLoop : Nat → ListBucketsResponse → List XmlEvt → Except String ListBucketsResponse
  | 0, _, _ => .error "fuel exhausted"
  | _ + 1, _, [] => .error "unexpected end of stream"
  | fuel + 1, r, e :: rest =>
    match e with
    | .endDocument => .ok r
    | .startElement n =>
      if n = "Prefix" then
        match rest with
        | .characters v :: rest2 => lbTopLoop fuel { r with prefix_opt := some v } rest2
        | _ => .error "Invalid response object, Prefix has no value"
      else if n = "ContinuationToken" then
        match rest with
        | .characters v :: rest2 => lbTopLoop fuel { r with continuation_token := some v } rest2
        | _ => .error "Invalid response object, ContinuationToken has no value"
      else if n = "Owner" then
        match lbOwnerLoop fuel r.owner rest with
        | .ok (ow, rest2) => lbTopLoop fuel { r with owner := ow } rest2
        | .error msg => .error msg
      else if n = "Buckets" then
        match lbBucketsLoop fuel r.buckets rest with
        | .ok (bs, rest2) => lbTopLoop fuel { r with buckets := bs } rest2
        | .error msg => .error msg
      else lbTopLoop fuel r rest
    | _ => lbTopLoop fuel r rest

/-- `ListBucketsResponse::parse_body`: all fields start unset/empty. -/
def ListBucketsResponse.parse_body (fuel : Nat) (evts : List XmlEvt) :
    Except String ListBucketsResponse :=
  lbTopLoop fuel ⟨none, [], ⟨none, ""⟩, none⟩ evts

/-- The names (first components) of a header list. -/
def headerNames (hs : List (String × String)) : List String := hs.map Prod.fst

/-! ### Helper lemmas about the emitted header map -/

theorem strApp_assoc (a b c : String) : (a ++ b) ++ c = a ++ (b ++ c) := by
  cases a
  cases b
  cases c
  exact congrArg String.mk (List.append_assoc _ _ _)

theorem char_toNat_inj {a b : Char} (h : a.toNat = b.toNat) : a = b := by
  have := congrArg Char.ofNat h
  rwa [Char.ofNat_toNat, Char.ofNat_toNat] at this

theorem str_data_inj {s t : String} (h : s.data = t.data) : s = t := by
  cases s
  cases t
  exact congrArg String.mk (by simpa using h)

theorem strLtb_asymm : ∀ {x y : List Char}, strLtb x y = true → strLtb y x = false := by
  intro x
  induction x with
  | nil =>
    intro y h
    cases y with
    | nil => simp [strLtb] at h
    | cons b bs => simp [strLtb]
  | cons a as ih =>
    intro y h
    cases y with
    | nil => simp [strLtb] at h
    | cons b bs =>
      rcases Nat.lt_trichotomy a.toNat b.toNat with hlt | heq | hgt
      · simp [strLtb, Nat.lt_asymm hlt, hlt]
      · have h1 : ¬ a.toNat < b.toNat := by omega
        have h2 : ¬ b.toNat < a.toNat := by omega
        simp only [strLtb, if_neg h1, if_neg h2] at h ⊢
        exact ih h
      · simp only [strLtb, if_neg (Nat.lt_asymm hgt), if_pos hgt] at h
        simp at h

theorem strLtb_conn : ∀ {x y : List Char},
    strLtb x y = false → strLtb y x = false → x = y := by
  intro x
  induction x with
  | nil =>
    intro y h1 _
    cases y with
    | nil => rfl
    | cons b bs => simp [strLtb] at h1
  | cons a as ih =>
    intro y h1 h2
    cases y with
    | nil => simp [strLtb] at h2
    | cons b bs =>
      rcases Nat.lt_trichotomy a.toNat b.toNat with hlt | heq | hgt
      · simp [strLtb, hlt] at h1
      · have hn1 : ¬ a.toNat < b.toNat := by omega
        have hn2 : ¬ b.toNat < a.toNat := by omega
        simp only [strLtb, if_neg hn1, if_neg hn2] at h1 h2
        rw [char_toNat_inj heq]
        exact congrArg (List.cons b) (ih h1 h2)
      · simp [strLtb, hgt, Nat.lt_asymm hgt] at h2

theorem strLtb_trans : ∀ {x y z : List Char},
    strLtb x y = true → strLtb y z = true → strLtb x z = true := by
  intro x
  induction x with
  | nil =>
    intro y z _ h2
    cases z with
    | nil => cases y <;> simp [strLtb] at h2
    | cons c cs => simp [strLtb]
  | cons a as ih =>
    intro y z h1 h2
    cases y with
    | nil => simp [strLtb] at h1
    | cons b bs =>
      cases z with
      | nil => simp [strLtb] at h2
      | cons c cs =>
        rcases Nat.lt_trichotomy a.toNat b.toNat with hab | hab | hab
        · rcases Nat.lt_trichotomy b.toNat c.toNat with hbc | hbc | hbc
          · have : a.toNat < c.toNat := Nat.lt_trans hab hbc
            simp [strLtb, this]
          · have : a.toNat < c.toNat := by omega
            simp [strLtb, this]
          · simp [strLtb, hbc, Nat.lt_asymm hbc] at h2
        · rcases Nat.lt_trichotomy b.toNat c.toNat with hbc | hbc | hbc
          · have : a.toNat < c.toNat := by omega
            simp [strLtb, this]
          · have hn1 : ¬ a.toNat < b.toNat := by omega
            have hn2 : ¬ b.toNat < a.toNat := by omega
            have hn3 : ¬ b.toNat < c.toNat := by omega
            have hn4 : ¬ c.toNat < b.toNat := by omega
            have hn5 : ¬ a.toNat < c.toNat := by omega
            have hn6 : ¬ c.toNat < a.toNat := by omega
            simp only [strLtb, if_neg hn1, if_neg hn2] at h1
            simp only [strLtb, if_neg hn3, if_neg hn4] at h2
            simp only [strLtb, if_neg hn5, if_neg hn6]
            exact ih h1 h2
          · simp [strLtb, hbc, Nat.lt_asymm hbc] at h2
        · simp [strLtb, hab, Nat.lt_asymm hab] at h1

theorem pairLtb_asymm {x y : String × String}
    (h : pairLtb x y = true) : pairLtb y x = false := by
  unfold pairLtb at h ⊢
  by_cases h1 : strLtb x.1.data y.1.data = true
  · simp [h1, strLtb_asymm h1]
  · replace h1 : strLtb x.1.data y.1.data = false := by simpa using h1
    by_cases h2 : strLtb y.1.data x.1.data = true
    · simp [h1, h2] at h
    · replace h2 : strLtb y.1.data x.1.data = false := by simpa using h2
      simp only [h1, h2, if_neg, Bool.false_eq_true, if_false] at h ⊢
      exact strLtb_asymm h

theorem pairLtb_conn {x y : String × String}
    (h1 : pairLtb x y = false) (h2 : pairLtb y x = false) : x = y := by
  unfold pairLtb at h1 h2
  by_cases ha : strLtb x.1.data y.1.data = true
  · simp [ha] at h1
  · replace ha : strLtb x.1.data y.1.data = false := by simpa using ha
    by_cases hb : strLtb y.1.data x.1.data = true
    · simp [ha, hb] at h2
    · replace hb : strLtb y.1.data x.1.data = false := by simpa using hb
      simp only [ha, hb, Bool.false_eq_true, if_false] at h1 h2
      exact Prod.ext (str_data_inj (strLtb_conn ha hb)) (str_data_inj (strLtb_conn h1 h2))

theorem pairLtb_trans {x y z : String × String}
    (h1 : pairLtb x y = true) (h2 : pairLtb y z = true) : pairLtb x z = true := by
  unfold pairLtb at h1 h2 ⊢
  by_cases ha : strLtb x.1.data y.1.data = true
  · by_cases hb : strLtb y.1.data z.1.data = true
    · simp [strLtb_trans ha hb]
    · replace hb : strLtb y.1.data z.1.data = false := by simpa using hb
      by_cases hc : strLtb z.1.data y.1.data = true
      · simp [hb, hc] at h2
      · replace hc : strLtb z.1.data y.1.data = false := by simpa using hc
        rw [strLtb_conn hb hc] at ha
        simp [ha]
  · replace ha : strLtb x.1.data y.1.data = false := by simpa using ha
    by_cases hb : strLtb y.1.data x.1.data = true
    · simp [ha, hb] at h1
    · replace hb : strLtb y.1.data x.1.data = false := by simpa using hb
      have hxy : x.1.data = y.1.data := strLtb_conn ha hb
      simp only [ha, hb, Bool.false_eq_true, if_false] at h1
      by_cases hc : strLtb y.1.data z.1.data = true
      · simp [hxy, hc]
      · replace hc : strLtb y.1.data z.1.data = false := by simpa using hc
        by_cases hd : strLtb z.1.data y.1.data = true
        · simp [hc, hd] at h2
        · replace hd : strLtb z.1.data y.1.data = false := by simpa using hd
          simp only [hc, hd, Bool.false_eq_true, if_false] at h2
          simp only [hxy, hc, hd, Bool.false_eq_true, if_false]
          exact strLtb_trans h1 h2

instance : IsTotal (String × String) pairLe where
  total x y := by
    by_cases h : pairLtb y x = true
    · exact Or.inr (pairLtb_asymm h)
    · exact Or.inl (by simpa [pairLe] using h)

instance : IsTrans (String × String) pairLe where
  trans x y z hxy hyz := by
    unfold pairLe at hxy hyz ⊢
    by_contra hzx
    replace hzx : pairLtb z x = true := by simpa using hzx
    by_cases h : pairLtb x y = true
    · have ht := pairLtb_trans hzx h
      rw [hyz] at ht
      exact absurd ht (by decide)
    · replace h : pairLtb x y = false := by simpa using h
      rw [pairLtb_conn h hxy] at hzx
      rw [hyz] at hzx
      exact absurd hzx (by decide)

instance : IsAntisymm (String × String) pairLe where
  antisymm x y hxy hyx := pairLtb_conn hyx hxy

theorem sortPairs_congr {l₁ l₂ : List (String × String)} (h : l₁.Perm l₂) :
    sortPairs l₁ = sortPairs l₂ :=
  List.eq_of_perm_of_sorted
    ((List.perm_insertionSort pairLe l₁).trans (h.trans (List.perm_insertionSort pairLe l₂).symm))
    (List.sorted_insertionSort pairLe l₁) (List.sorted_insertionSort pairLe l₂)

theorem ltral (x : String) :
    "/" ++ ("s3" ++ ("/aws4_request" ++ x)) = "/s3/aws4_request" ++ x := by
  rw [← strApp_assoc, ← strApp_assoc]
  exact congrArg (fun s => s ++ x) rfl

theorem mem_insertHeader_of_ne {hs : List (String × String)} {p : String × String}
    {k v : String} (hp : p ∈ hs) (hne : p.1 ≠ k) : p ∈ insertHeader hs k v := by
  unfold insertHeader
  split
  · exact List.mem_map.mpr ⟨p, hp, by simp [hne]⟩
  · exact List.mem_append_left _ hp

theorem mem_foldl_insert {gen : List (String × String)} {base : List (String × String)}
    {p : String × String} (hp : p ∈ base)
    (hk : ∀ kv ∈ gen, lowerStr kv.1 ≠ p.1) :
    p ∈ gen.foldl (fun acc kv => insertHeader acc (lowerStr kv.1) kv.2) base := by
  induction gen generalizing base with
  | nil => exact hp
  | cons q qs ih =>
    simp only [List.foldl_cons]
    exact ih
      (mem_insertHeader_of_ne hp (fun h => hk q (List.mem_cons_self q qs) (h ▸ rfl)))
      (fun kv hkv => hk kv (List.mem_cons_of_mem q hkv))

theorem mem_names_insertHeader {n : String} (hs : List (String × String)) (k v : String) :
    n ∈ headerNames (insertHeader hs k v) ↔ n ∈ headerNames hs ∨ n = k := by
  unfold insertHeader headerNames
  by_cases h : (hs.any fun p => decide (p.1 = k)) = true
  · rw [if_pos h]
    have hmap : (hs.map (fun p => if p.1 = k then (k, v) else p)).map Prod.fst
        = hs.map Prod.fst := by
      rw [List.map_map]
      apply List.map_congr_left
      intro p _
      by_cases hpk : p.1 = k
      · simp [hpk]
      · simp [hpk]
    rw [hmap]
    constructor
    · exact Or.inl
    · rintro (hn | rfl)
      · exact hn
      · obtain ⟨p, hp, hpk⟩ := List.any_eq_true.mp h
        exact List.mem_map.mpr ⟨p, hp, of_decide_eq_true hpk⟩
  · rw [if_neg h, List.map_append]
    simp [List.mem_append]

theorem mem_names_foldl {gen : List (String × String)} {base : List (String × String)}
    {n : String} :
    n ∈ headerNames (gen.foldl (fun acc kv => insertHeader acc (lowerStr kv.1) kv.2) base)
      ↔ n ∈ headerNames base ∨ ∃ kv ∈ gen, lowerStr kv.1 = n := by
  induction gen generalizing base with
  | nil => simp
  | cons q qs ih =>
    simp only [List.foldl_cons]
    rw [ih, mem_names_insertHeader]
    constructor
    · rintro ((hb | rfl) | ⟨kv, hkv, hn⟩)
      · exact Or.inl hb
      · exact Or.inr ⟨q, List.mem_cons_self q qs, rfl⟩
      · exact Or.inr ⟨kv, List.mem_cons_of_mem q hkv, hn⟩
    · rintro (hb | ⟨kv, hkv, hn⟩)
      · exact Or.inl (Or.inl hb)
      · rcases List.mem_cons.mp hkv with rfl | htl
        · exact Or.inl (Or.inr hn.symm)
        · exact Or.inr ⟨kv, htl, hn⟩

/-! ### Claim theorems -/

/-- C1: for every secret key, date stamp, region, amz-date and canonical
request string, the signature computed by `build` equals
`hex(HMAC-SHA256(signing_key, stringToSign))` with the four-stage signing-key
chain and the string-to-sign exactly as the specification states them; the
result is a function of those inputs alone.  The second conjunct ties the
standalone signature function to the full `build` output. -/
theorem build_signature_matches_spec_chain :
    (∀ secret dateStamp region amzDate creq : String,
      buildSignature secret dateStamp region amzDate creq
        = hexEncode (hmacSha256 (spec_signing_key secret dateStamp region)
            (strBytes (spec_string_to_sign amzDate dateStamp region creq))))
    ∧ ∀ st dateStamp amzDate scheme host,
      (buildRequest st dateStamp amzDate scheme host).signature
        = buildSignature st.secretKey dateStamp st.region amzDate
            (buildRequest st dateStamp amzDate scheme host).canonicalRequest := by
  constructor
  · intro s d r a c
    simp only [buildSignature, spec_string_to_sign, spec_signing_key,
      get_signature_key, AWS_SERVICE, AWS_SIGN_ALGORITHM, strApp_assoc]
    rw [ltral]
  · intro st d a sc h
    rfl

/-- C4: the payload hash of every build is the hex SHA-256 of the body bytes
when a body is set and the hex SHA-256 of the sentinel string
`"UNSIGNED-PAYLOAD"` when not; it is the last line of the canonical request
and is sent as the `x-amz-content-sha256` header (the hypothesis rules out a
caller-supplied general header overwriting that entry, which the `header`
routing never produces since it diverts `x-amz*` names). -/
theorem payload_hash_body_or_sentinel (st : BuilderSt)
    (dateStamp amzDate scheme host : String) (b : List Nat)
    (hn : ∀ kv ∈ st.headers, lowerStr kv.1 ≠ "x-amz-content-sha256") :
    (buildRequest { st with body := some b } dateStamp amzDate scheme host).payloadHash
        = hexEncode (sha256 b)
    ∧ (buildRequest { st with body := none } dateStamp amzDate scheme host).payloadHash
        = hexEncode (sha256 (strBytes "UNSIGNED-PAYLOAD"))
    ∧ (∃ pre, (buildRequest st dateStamp amzDate scheme host).canonicalRequest
        = pre ++ (buildRequest st dateStamp amzDate scheme host).payloadHash)
    ∧ ("x-amz-content-sha256",
        (buildRequest st dateStamp amzDate scheme host).payloadHash)
        ∈ (buildRequest st dateStamp amzDate scheme host).headers := by
  refine ⟨rfl, rfl, ⟨_, rfl⟩, ?_⟩
  exact mem_foldl_insert (List.mem_cons_self _ _) hn

/-- C2 (counterexample to the lower-casing part of the header canonicalization
claim): a caller-supplied x-amz header whose name contains upper-case letters
is routed to the signed set unchanged; the canonical block and signed-header
list keep `x-amz-Meta-Test` verbatim (and sort it by its raw bytes, before
`x-amz-content-sha256`), where the claim requires `x-amz-meta-test`.  The
block is otherwise `name:value` lines, sorted, with a trailing newline. -/
theorem canonical_headers_keep_supplied_case :
    ((BuilderSt.new "GET" "obj" "AK" "SK" "r" "h.example").headerPush "x-amz-Meta-Test" "v").xAmzHeaders
        = [("x-amz-Meta-Test", "v")]
    ∧ canonicalHeaderBlock (canonicalHeadersVec [("x-amz-Meta-Test", "v")] "h.example" "PH" "AD")
        = "host:h.example\nx-amz-Meta-Test:v\nx-amz-content-sha256:PH\nx-amz-date:AD\n"
    ∧ canonicalHeaderBlock (canonicalHeadersVec [("x-amz-Meta-Test", "v")] "h.example" "PH" "AD")
        ≠ "host:h.example\nx-amz-content-sha256:PH\nx-amz-date:AD\nx-amz-meta-test:v\n"
    ∧ signedHeadersOf (canonicalHeadersVec [("x-amz-Meta-Test", "v")] "h.example" "PH" "AD")
        = "host;x-amz-Meta-Test;x-amz-content-sha256;x-amz-date" := by
  refine ⟨by decide, by decide, by decide, by decide⟩

theorem foldl_queryPush (l : List (String × Option String)) (st : BuilderSt) :
    (l.foldl (fun s kv => s.queryPush kv.1 kv.2) st).query
      = st.query ++ l.map
          (fun kv => (percent_encode_query kv.1, percent_encode_query (kv.2.getD ""))) := by
  induction l generalizing st with
  | nil => simp
  | cons q qs ih =>
    simp only [List.foldl_cons, List.map_cons]
    rw [ih]
    simp [BuilderSt.queryPush]

theorem canonicalQueryString_congr {q₁ q₂ : List (String × String)} (h : q₁.Perm q₂) :
    canonicalQueryString q₁ = canonicalQueryString q₂ := by
  cases q₁ with
  | nil =>
    rw [h.symm.eq_nil]
  | cons a t =>
    cases q₂ with
    | nil => simpa using h.eq_nil
    | cons b u =>
      unfold canonicalQueryString
      rw [sortPairs_congr h]

/-- C3: the canonical query string does not depend on the order in which the
query pairs were added through `S3RequestBuilder::query`: for any two
insertion orders of the same multiset, `build` sorts the percent-encoded
pairs (by encoded key, then encoded value), joins `k=v` with `&`, and the
results agree; the empty pair list canonicalizes to the empty string. -/
theorem canonical_query_order_independent (st : BuilderSt)
    (l₁ l₂ : List (String × Option String)) (h : l₁.Perm l₂) :
    canonicalQueryString ((l₁.foldl (fun s kv => s.queryPush kv.1 kv.2) st).query)
      = canonicalQueryString ((l₂.foldl (fun s kv => s.queryPush kv.1 kv.2) st).query)
    ∧ canonicalQueryString [] = "" := by
  refine ⟨?_, rfl⟩
  rw [foldl_queryPush, foldl_queryPush]
  exact canonicalQueryString_congr (List.Perm.append_left _ (h.map _))

/-- Witness for the order-independence theorem, on the specification's own
example pairs b=2, a=1 added in the two orders. -/
theorem canonical_query_order_independent_witness :
    ([("b", some "2"), ("a", some "1")] : List (String × Option String)).Perm
        [("a", some "1"), ("b", some "2")]
    ∧ (canonicalQueryString
        (([("b", some "2"), ("a", some "1")] : List (String × Option String)).foldl
          (fun s kv => s.queryPush kv.1 kv.2) (BuilderSt.new "GET" "/" "AK" "SK" "r" "h.example")).query
      = canonicalQueryString
        (([("a", some "1"), ("b", some "2")] : List (String × Option String)).foldl
          (fun s kv => s.queryPush kv.1 kv.2) (BuilderSt.new "GET" "/" "AK" "SK" "r" "h.example")).query) :=
  ⟨by decide,
   (canonical_query_order_independent (BuilderSt.new "GET" "/" "AK" "SK" "r" "h.example")
      [("b", some "2"), ("a", some "1")] [("a", some "1"), ("b", some "2")] (by decide)).1⟩

/-- C5 (counterexample to the mandatory-header part): a successful build emits
no `host` header at all: its header names are only `x-amz-content-sha256`,
`x-amz-date`, `authorization` and `content-length` when the caller supplied no
general headers. -/
theorem built_request_lacks_host_header :
    "host" ∉ headerNames ((buildRequest (BuilderSt.new "GET" "obj" "AK" "SK" "r" "h.example")
        "20200101" "20200101T000000Z" "https" "h.example").headers) := by
  decide

/-- C5 (amended): the emitted URI is `scheme://host/ACTION`, with
`?canonical_query` appended exactly when the query list is non-empty, and the
emitted header names are exactly `x-amz-content-sha256`, `x-amz-date`,
`authorization` and `content-length` plus the lower-cased names of the
caller-supplied general headers; `host` is carried only in the URI authority,
not as an emitted header. -/
theorem built_request_uri_and_header_names (st : BuilderSt)
    (dateStamp amzDate scheme host : String) :
    (buildRequest st dateStamp amzDate scheme host).uri
      = scheme ++ "://" ++ host ++ "/" ++ st.action
        ++ (match st.query with
            | [] => ""
            | _ => "?" ++ canonicalQueryString st.query)
    ∧ ∀ n, n ∈ headerNames (buildRequest st dateStamp amzDate scheme host).headers
        ↔ n ∈ ["x-amz-content-sha256", "x-amz-date", "authorization", "content-length"]
          ∨ ∃ kv ∈ st.headers, lowerStr kv.1 = n := by
  constructor
  · show (match st.query with
        | [] => scheme ++ "://" ++ host ++ "/" ++ st.action
        | _ => scheme ++ "://" ++ host ++ "/" ++ st.action ++ "?"
            ++ canonicalQueryString st.query)
      = scheme ++ "://" ++ host ++ "/" ++ st.action
        ++ (match st.query with
            | [] => ""
            | _ => "?" ++ canonicalQueryString st.query)
    cases st.query with
    | nil => rw [String.append_empty]
    | cons a t => simp only [strApp_assoc]
  · intro n
    exact mem_names_foldl

/-- C8: for both GetObject and HeadObject, `into_builder` rejects part
numbers 0 and 10001 (no builder, hence no partNumber query parameter, is
produced) and accepts 1 and 10000, adding the partNumber query parameter. -/
theorem part_number_bounds :
    (GetObjectRequest.into_builder ⟨"k", some 0, none⟩ "AK" "SK" "r" "e").isOk = false
    ∧ (GetObjectRequest.into_builder ⟨"k", some 10001, none⟩ "AK" "SK" "r" "e").isOk = false
    ∧ builderQueryHas (GetObjectRequest.into_builder ⟨"k", some 1, none⟩ "AK" "SK" "r" "e")
        "partNumber" "1" = true
    ∧ builderQueryHas (GetObjectRequest.into_builder ⟨"k", some 10000, none⟩ "AK" "SK" "r" "e")
        "partNumber" "10000" = true
    ∧ (HeadObjectRequest.into_builder ⟨"k", some 0, none⟩ "AK" "SK" "r" "e").isOk = false
    ∧ (HeadObjectRequest.into_builder ⟨"k", some 10001, none⟩ "AK" "SK" "r" "e").isOk = false
    ∧ builderQueryHas (HeadObjectRequest.into_builder ⟨"k", some 1, none⟩ "AK" "SK" "r" "e")
        "partNumber" "1" = true
    ∧ builderQueryHas (HeadObjectRequest.into_builder ⟨"k", some 10000, none⟩ "AK" "SK" "r" "e")
        "partNumber" "10000" = true := by
  decide

/-- C6 (the RestoreStatus sub-decode does not stop at its own end tag): on a
well-formed element
`<RestoreStatus><IsRestoreInProgress>true</IsRestoreInProgress></RestoreStatus>`
followed by the enclosing `</Contents>`, both RestoreStatus loops consume
`</RestoreStatus>` and `</Contents>` without breaking and then fail at the
end of the stream; the loops break only on an `</Owner>` end tag. -/
theorem restore_status_loop_breaks_on_owner :
    restoreStatusLoop 10 ⟨false, ⟨0, 0⟩⟩
        [.startElement "IsRestoreInProgress", .characters "true",
         .endElement "IsRestoreInProgress", .endElement "RestoreStatus",
         .endElement "Contents"]
      = .error "unexpected end of stream"
    ∧ lov2RestoreStatusLoop 10 ⟨false, ⟨0, 0⟩⟩
        [.startElement "IsRestoreInProgress", .characters "true",
         .endElement "IsRestoreInProgress", .endElement "RestoreStatus",
         .endElement "Contents"]
      = .error "unexpected end of stream"
    ∧ restoreStatusLoop 10 ⟨false, ⟨0, 0⟩⟩ [.endElement "Owner"]
      = .ok (⟨false, ⟨0, 0⟩⟩, [])
    ∧ lov2RestoreStatusLoop 10 ⟨false, ⟨0, 0⟩⟩ [.endElement "Owner"]
      = .ok (⟨false, ⟨0, 0⟩⟩, []) := by
  refine ⟨rfl, rfl, rfl, rfl⟩

/-- C7 (counterexample): decoding a `Bucket` element with the required `Name`
absent does not return a decode error - `ApiBucket::parse` succeeds and
returns a record with the empty-string default name (and likewise
`ApiOwner::parse` with the required `ID` absent). -/
theorem missing_required_field_still_decodes :
    ApiBucket.parse 10 [.endElement "Bucket"] = .ok (⟨"", none, ""⟩, [])
    ∧ ApiOwner.parse 10 [.endElement "Owner"] = .ok (⟨none, ""⟩, []) := by
  refine ⟨rfl, rfl⟩

/-- C7 (amended): no decode routine enforces required fields; a field absent
from the XML - required or optional - simply leaves the record's initial
value (empty string for names/ids, `none` for optional fields), and the
decode succeeds.  Shown for `ApiBucket::parse`, `ApiOwner::parse` and the
inline bucket loop of the ListBuckets body decoder; an optional field absent
(CreationDate, DisplayName) likewise stays unset while present fields are
filled. -/
theorem absent_fields_leave_defaults :
    ApiBucket.parse 10 [.endElement "Bucket"] = .ok (⟨"", none, ""⟩, [])
    ∧ ApiOwner.parse 10 [.endElement "Owner"] = .ok (⟨none, ""⟩, [])
    ∧ ApiBucket.parse 10
        [.startElement "Name", .characters "x", .endElement "Name", .endElement "Bucket"]
      = .ok (⟨"x", none, ""⟩, [])
    ∧ ApiOwner.parse 10
        [.startElement "ID", .characters "abc", .endElement "ID", .endElement "Owner"]
      = .ok (⟨none, "abc"⟩, [])
    ∧ lbBucketLoop 10 ⟨"", none, ""⟩ [.endElement "Bucket"] = .ok (⟨"", none, ""⟩, []) := by
  refine ⟨rfl, rfl, rfl, rfl, rfl⟩

/-- C9: the ListBuckets decoder, on the event stream of the literal body
`<ListBucketsResult><Buckets><Bucket><Name>x</Name><CreationDate>...` from
the specification, succeeds with exactly one bucket named `x` in region
`us-east-1` created at epoch second 1577836800 (2020-01-01T00:00:00Z), and
owner id `abc` with no display name. -/
theorem list_buckets_literal_decode :
    ListBucketsResponse.parse_body 64
      [.startDocument, .startElement "ListBucketsResult",
       .startElement "Buckets", .startElement "Bucket",
       .startElement "Name", .characters "x", .endElement "Name",
       .startElement "CreationDate", .characters "2020-01-01T00:00:00Z",
       .endElement "CreationDate",
       .startElement "BucketRegion", .characters "us-east-1", .endElement "BucketRegion",
       .endElement "Bucket", .endElement "Buckets",
       .startElement "Owner",
       .startElement "ID", .characters "abc", .endElement "ID",
       .endElement "Owner",
       .endElement "ListBucketsResult", .endDocument]
      = .ok ⟨none, [⟨"x", some ⟨1577836800, 0⟩, "us-east-1"⟩], ⟨none, "abc"⟩, none⟩ := by
  rfl

/-- C10 (counterexample): an unknown element with no character data aborts
the Owner sub-decode: the inline Owner loop of the ListBuckets body decoder
demands a character event after every start tag, known or not, so the mere
presence of the empty unknown element `<Pet/>` is a decode error. -/
theorem owner_unknown_empty_element_errors :
    lbOwnerLoop 10 ⟨none, ""⟩ [.startElement "Pet", .endElement "Pet", .endElement "Owner"]
      = .error "Invalid response object, Pet element has no value" := by
  rfl

/-- C10 (amended): in the name-dispatching loops (the ListBuckets top level
and the bucket entry loop) an unknown start tag, its character data and its
end tag are skipped without effect; in the Owner loop an unknown element
carrying character data is also skipped, but an unknown start tag there must
still be followed by a character event - an empty unknown element is a
decode error (the counterexample case). -/
theorem unknown_elements_skip_rules (fuel : Nat) (r : ListBucketsResponse)
    (b : ApiBucket) (ow : ApiOwner) (n t : String) (evts : List XmlEvt)
    (hn : n ∉ ["Prefix", "ContinuationToken", "Owner", "Buckets", "BucketRegion",
      "CreationDate", "Name", "Bucket", "DisplayName", "ID"]) :
    lbTopLoop (fuel + 3) r (.startElement n :: .characters t :: .endElement n :: evts)
        = lbTopLoop fuel r evts
    ∧ lbBucketLoop (fuel + 3) b (.startElement n :: .characters t :: .endElement n :: evts)
        = lbBucketLoop fuel b evts
    ∧ lbOwnerLoop (fuel + 2) ow (.startElement n :: .characters t :: .endElement n :: evts)
        = lbOwnerLoop fuel ow evts
    ∧ lbOwnerLoop 2 ow [.startElement n, .endElement n]
        = .error ("Invalid response object, " ++ n ++ " element has no value") := by
  simp only [List.mem_cons, List.not_mem_nil, or_false, not_or] at hn
  obtain ⟨h1, h2, h3, h4, h5, h6, h7, h8, h9, h10⟩ := hn
  refine ⟨?_, ?_, ?_, ?_⟩
  · simp only [lbTopLoop, h1, h2, h3, h4, if_false, if_neg]
  · simp only [lbBucketLoop, h5, h6, h7, h8, if_false, if_neg]
  · simp only [lbOwnerLoop, h9, h10, h3, if_false, if_neg]
  · simp only [lbOwnerLoop]

/-- Witness for the unknown-element skip rules at a concrete unknown name. -/
theorem unknown_elements_skip_rules_witness :
    (("Zebra" : String) ∉ ["Prefix", "ContinuationToken", "Owner", "Buckets", "BucketRegion",
      "CreationDate", "Name", "Bucket", "DisplayName", "ID"])
    ∧ (lbTopLoop 4 ⟨none, [], ⟨none, ""⟩, none⟩
        [.startElement "Zebra", .characters "q", .endElement "Zebra", .endDocument]
      = lbTopLoop 1 ⟨none, [], ⟨none, ""⟩, none⟩ [.endDocument]
      ∧ lbOwnerLoop 2 ⟨none, ""⟩ [.startElement "Zebra", .endElement "Zebra"]
      = .error ("Invalid response object, " ++ "Zebra" ++ " element has no value")) := by
  have hn : ("Zebra" : String) ∉ ["Prefix", "ContinuationToken", "Owner", "Buckets",
      "BucketRegion", "CreationDate", "Name", "Bucket", "DisplayName", "ID"] := by decide
  refine ⟨hn, ?_, ?_⟩
  · exact (unknown_elements_skip_rules 1 ⟨none, [], ⟨none, ""⟩, none⟩ ⟨"", none, ""⟩
      ⟨none, ""⟩ "Zebra" "q" [.endDocument] hn).1
  · exact (unknown_elements_skip_rules 1 ⟨none, [], ⟨none, ""⟩, none⟩ ⟨"", none, ""⟩
      ⟨none, ""⟩ "Zebra" "q" [.endDocument] hn).2.2.2

/-- Witness for the C4 theorem at a concrete builder with one general header. -/
theorem payload_hash_body_or_sentinel_witness :
    (∀ kv ∈ [("content-type", "text/plain")], lowerStr kv.1 ≠ "x-amz-content-sha256")
    ∧ ((buildRequest
          { BuilderSt.new "GET" "k" "AK" "SK" "eu-north-1" "h.example" with
              headers := [("content-type", "text/plain")], body := some [97] }
          "20200101" "20200101T000000Z" "https" "h.example" ).payloadHash
        = hexEncode (sha256 [97])
      ∧ ("x-amz-content-sha256",
          (buildRequest
            { BuilderSt.new "GET" "k" "AK" "SK" "eu-north-1" "h.example" with
                headers := [("content-type", "text/plain")], body := some [97] }
            "20200101" "20200101T000000Z" "https" "h.example" ).payloadHash)
          ∈ (buildRequest
            { BuilderSt.new "GET" "k" "AK" "SK" "eu-north-1" "h.example" with
                headers := [("content-type", "text/plain")], body := some [97] }
            "20200101" "20200101T000000Z" "https" "h.example" ).headers) := by
  have hn : ∀ kv ∈ [("content-type", "text/plain")],
      lowerStr kv.1 ≠ ("x-amz-content-sha256" : String) := by decide
  refine ⟨hn, ?_, ?_⟩
  · exact (payload_hash_body_or_sentinel
      { BuilderSt.new "GET" "k" "AK" "SK" "eu-north-1" "h.example" with
          headers := [("content-type", "text/plain")], body := some [97] }
      "20200101" "20200101T000000Z" "https" "h.example" [97] hn).1
  · exact (payload_hash_body_or_sentinel
      { BuilderSt.new "GET" "k" "AK" "SK" "eu-north-1" "h.example" with
          headers := [("content-type", "text/plain")], body := some [97] }
      "20200101" "20200101T000000Z" "https" "h.example" [97] hn).2.2.2

end S3
